import Mathlib

set_option maxRecDepth 40000

/-
Shallow embedding of `src/modelscope/models/cv/face_emotion/efficient/utils.py`
(EfficientNet-style architecture configuration: the block-string codec, the
scaling policy, and the TensorFlow-SAME adaptive padding).

Python strings are modelled as `List Char`, Python ints as `ℤ`, Python floats
as `ℚ` (float arithmetic here is exact on every value the program computes,
so the rational model is faithful), and an expression that raises an
exception is modelled as `none`.

All rational values are built through `qmk` below, which produces ordinary
`ℚ` values but is evaluable by the kernel (the library's own normalisation
goes through `Nat.gcd`, whose well-founded recursion the kernel cannot
unfold).
-/

/-- Euclid's algorithm with explicit fuel, so that the kernel can evaluate
it; with fuel `> m` it agrees with `Nat.gcd m k`. -/
def gcdFuel : ℕ → ℕ → ℕ → ℕ
  | 0, _, k => k
  | _ + 1, 0, k => k
  | f + 1, m + 1, k => gcdFuel f (k % (m + 1)) (m + 1)

/-- Build the rational `n / d` in lowest terms (`0` when `d = 0`, a case the
program never reaches).  Produces a genuine `ℚ`; every arithmetic operation
of the embedding funnels through this constructor so that closed theorems can
be settled by `decide`. -/
def qmk (n d : ℤ) : ℚ :=
  if hd : d = 0 then 0
  else
    have key : ∀ fuel m k : ℕ, m < fuel → gcdFuel fuel m k = Nat.gcd m k := by
      intro fuel
      induction fuel with
      | zero => intro m k h; omega
      | succ f ih =>
        intro m k hm
        cases m with
        | zero => simp [gcdFuel]
        | succ m0 =>
          rw [gcdFuel, Nat.gcd_succ]
          exact ih _ _ (by have := @Nat.mod_lt k (m0 + 1) (by omega); omega)
    let num : ℤ := if d < 0 then -n else n
    let na : ℕ := num.natAbs
    let db : ℕ := d.natAbs
    let g : ℕ := gcdFuel (na + 1) na db
    have hg : g = Nat.gcd na db := key _ _ _ (Nat.lt_succ_self na)
    have hdb : 0 < db := Int.natAbs_pos.mpr hd
    have hg0 : 0 < g := by
      rw [hg]; exact Nat.gcd_pos_of_pos_right na hdb
    have hden : db / g ≠ 0 := by
      have : 0 < db / g :=
        Nat.div_pos
          (by rw [hg]; exact Nat.le_of_dvd hdb (Nat.gcd_dvd_right na db)) hg0
      omega
    have hcop : Nat.Coprime (na / g) (db / g) := by
      rw [hg]; exact Nat.coprime_div_gcd_div_gcd (by rw [hg] at hg0; exact hg0)
    if 0 ≤ num then
      Rat.mk' ((na / g : ℕ) : ℤ) (db / g) hden (by simpa using hcop)
    else
      Rat.mk' (-((na / g : ℕ) : ℤ)) (db / g) hden (by simpa using hcop)

/-- The integer `n` as a rational (kernel-evaluable). -/
def qofInt (n : ℤ) : ℚ :=
  Rat.mk' n 1 one_ne_zero (Nat.coprime_one_right _)

/-- Kernel-evaluable addition on `ℚ` (agrees with `+`, see `qadd_eq`). -/
def qadd (a b : ℚ) : ℚ :=
  qmk (a.num * (b.den : ℤ) + b.num * (a.den : ℤ)) ((a.den : ℤ) * (b.den : ℤ))

/-- Kernel-evaluable multiplication on `ℚ` (agrees with `*`, see `qmul_eq`). -/
def qmul (a b : ℚ) : ℚ :=
  qmk (a.num * b.num) ((a.den : ℤ) * (b.den : ℤ))

/-- Kernel-evaluable division of a rational by an integer (agrees with
`a / d`, see `qdivInt_eq`). -/
def qdivInt (a : ℚ) (d : ℤ) : ℚ :=
  qmk a.num ((a.den : ℤ) * d)

/-- Kernel-evaluable floor of a rational (agrees with `Int.floor`, see
`qfloor_eq`). -/
def qfloor (q : ℚ) : ℤ :=
  Int.fdiv q.num (q.den : ℤ)

/-- Python `int(x)` on a float: truncation toward zero. -/
def pyTrunc (q : ℚ) : ℤ :=
  if q < 0 then -qfloor (-q) else qfloor q

/- ------------------------------------------------------------------ -/
/- Python string machinery, on `List Char`.                            -/
/- ------------------------------------------------------------------ -/

/-- Python `str.split(sep)` for a one-character separator:
`"a_b".split('_') = ["a", "b"]`, `"".split('_') = [""]`. -/
def splitOnChar (sep : Char) : List Char → List (List Char)
  | [] => [[]]
  | c :: rest =>
    let r := splitOnChar sep rest
    if c = sep then [] :: r
    else
      match r with
      | [] => [[c]]
      | g :: gs => (c :: g) :: gs

/-- `re.split(r'(\d.*)', op)` as used in `BlockDecoder._decode_block_string`:
the part of the token before its first digit paired with the capture running
from the first digit to the end; `none` models a token without any digit
(fewer than two split pieces, so the token is skipped). -/
def splitFirstDigit : List Char → Option (List Char × List Char)
  | [] => none
  | c :: rest =>
    if c.isDigit then some ([], c :: rest)
    else (splitFirstDigit rest).map (fun p => (c :: p.1, p.2))

/-- Python dict assignment `d[key] = value`: replace an existing binding,
otherwise append. -/
def dictInsert : List (List Char × List Char) → List Char → List Char →
    List (List Char × List Char)
  | [], k, v => [(k, v)]
  | (k0, v0) :: rest, k, v =>
    if k0 = k then (k, v) :: rest else (k0, v0) :: dictInsert rest k v

/-- Python dict lookup `d[key]`; `none` models `KeyError`, and `isSome`
models the membership test `key in d`. -/
def dictGet : List (List Char × List Char) → List Char → Option (List Char)
  | [], _ => none
  | (k0, v0) :: rest, k => if k0 = k then some v0 else dictGet rest k

/-- The `options` dict built by `BlockDecoder._decode_block_string`: split
the block string on `'_'` and, for every token containing a digit, bind the
letters before the first digit to the remainder of the token. -/
def parseOptions (cs : List Char) : List (List Char × List Char) :=
  (splitOnChar '_' cs).foldl
    (fun d op =>
      match splitFirstDigit op with
      | none => d
      | some (k, v) => dictInsert d k v)
    []

/-- Numeric value of a nonempty all-digit string (`none` otherwise). -/
def digitsVal (cs : List Char) : Option ℕ :=
  if cs ≠ [] ∧ cs.all Char.isDigit then
    some (cs.foldl (fun a c => a * 10 + (c.toNat - '0'.toNat)) 0)
  else none

/-- Numeric value of an all-digit string, `0` when empty. -/
def digitsVal0 (cs : List Char) : ℕ :=
  cs.foldl (fun a c => a * 10 + (c.toNat - '0'.toNat)) 0

/-- Python `int(s)` on the decimal strings this module feeds it: an optional
sign followed by one or more digits; `none` models `ValueError`. -/
def pyIntParse : List Char → Option ℤ
  | '-' :: rest => (digitsVal rest).map (fun n => -(n : ℤ))
  | '+' :: rest => (digitsVal rest).map (fun n => (n : ℤ))
  | cs => (digitsVal cs).map (fun n => (n : ℤ))

/-- Python `float(s)` on the plain decimal literals this module feeds it (an
optional sign, digits, optionally a dot and more digits — the only forms that
appear in block strings); `none` models `ValueError`. -/
def pyFloatCore (ds : List Char) : Option ℚ :=
  match splitOnChar '.' ds with
  | [a] => (digitsVal a).map (fun n => qofInt (n : ℤ))
  | [a, b] =>
    if (a ≠ [] ∨ b ≠ []) ∧ a.all Char.isDigit = true ∧ b.all Char.isDigit = true then
      some (qmk ((digitsVal0 a * 10 ^ b.length + digitsVal0 b : ℕ) : ℤ)
        ((10 ^ b.length : ℕ) : ℤ))
    else none
  | _ => none

def pyFloatParse : List Char → Option ℚ
  | '-' :: rest => (pyFloatCore rest).map (fun q => -q)
  | '+' :: rest => pyFloatCore rest
  | cs => pyFloatCore cs

/-- `int(c)` on a one-character string (`none` models `ValueError` on a
non-digit). -/
def charDigitVal (c : Char) : Option ℤ :=
  if c.isDigit then some ((c.toNat - '0'.toNat : ℕ) : ℤ) else none

/-- Python substring test `pat in s`. -/
def containsSub (pat : List Char) : List Char → Bool
  | [] => pat.isEmpty
  | c :: rest => pat.isPrefixOf (c :: rest) || containsSub pat rest

/- ------------------------------------------------------------------ -/
/- BlockArgs and the block-string codec (BlockDecoder).                -/
/- ------------------------------------------------------------------ -/

/-- The `BlockArgs` namedtuple (utils.py lines 20-23), with the field types
`_decode_block_string` populates. -/
structure BlockArgs where
  num_repeat : ℤ
  kernel_size : ℤ
  stride : List ℤ
  expand_ratio : ℤ
  input_filters : ℤ
  output_filters : ℤ
  se_ratio : Option ℚ
  id_skip : Bool
deriving DecidableEq

/-- The stride assertion of `_decode_block_string`, in the case where key
`'s'` is present: the value must have one character, or two equal
characters. -/
def strideAssertOk : List Char → Bool
  | [_] => true
  | [c1, c2] => c1 == c2
  | _ => false

/-- The body of `BlockDecoder._decode_block_string` (utils.py lines
341-373), as a function of the already-built options dict.  `none` models
every raising path: `KeyError` on a missing required key (note that the
stride assertion itself raises `KeyError` when `'s'` is absent, because its
second disjunct subscripts `options['s']` unconditionally),
`AssertionError` on a bad stride value, and `ValueError` on an unparsable
number. -/
def decodeFromOptions (cs : List Char)
    (options : List (List Char × List Char)) : Option BlockArgs :=
  (dictGet options ['s']).bind fun sv =>
  if strideAssertOk sv then
    (dictGet options ['r']).bind fun rv =>
    (pyIntParse rv).bind fun r =>
    (dictGet options ['k']).bind fun kv =>
    (pyIntParse kv).bind fun k =>
    sv.head?.bind fun sc =>
    (charDigitVal sc).bind fun s0 =>
    (dictGet options ['e']).bind fun ev =>
    (pyIntParse ev).bind fun e =>
    (dictGet options ['i']).bind fun iv =>
    (pyIntParse iv).bind fun i =>
    (dictGet options ['o']).bind fun ov =>
    (pyIntParse ov).bind fun o =>
    match dictGet options ['s', 'e'] with
    | none => some ⟨r, k, [s0], e, i, o, none, !containsSub ("noskip".data) cs⟩
    | some sev =>
      (pyFloatParse sev).map fun q =>
        ⟨r, k, [s0], e, i, o, some q, !containsSub ("noskip".data) cs⟩
  else none

/-- `BlockDecoder._decode_block_string` proper: build the options dict from
the block string, then run the body above on it. -/
def decode_block_string (cs : List Char) : Option BlockArgs :=
  decodeFromOptions cs (parseOptions cs)

/-- `BlockDecoder.decode` on a list of block strings (a list comprehension:
the whole call raises as soon as one element raises). -/
def decodeBlocksList : List (List Char) → Option (List BlockArgs)
  | [] => some []
  | s :: rest =>
    (decode_block_string s).bind fun b =>
      (decodeBlocksList rest).map (fun bs => b :: bs)

def BlockDecoder_decode (string_list : List String) : Option (List BlockArgs) :=
  decodeBlocksList (string_list.map String.data)

/-- Attribute lookup `block.strides` performed by
`BlockDecoder._encode_block_string` (utils.py line 386).  The `BlockArgs`
namedtuple has a field named `stride`, not `strides`, so this lookup raises
`AttributeError` for every block; `none` models that. -/
def blockStridesAttr (_block : BlockArgs) : Option (List ℤ) := none

/-- Decimal rendering of an integer, as Python `'%d' % n`. -/
def intChars (n : ℤ) : List Char :=
  if n < 0 then '-' :: Nat.toDigits 10 (-n).toNat else Nat.toDigits 10 n.toNat

/-- Fractional digits of `rem / den`, with fuel; used to render a float the
way Python's `str.format` renders the terminating decimals this module
handles (the rendering is never reached on a decoded block, because encoding
fails earlier — see `encodeCore`). -/
def fracChars : ℕ → ℕ → ℕ → List Char
  | 0, _, _ => []
  | _ + 1, _, 0 => []
  | f + 1, rem, den =>
    if rem = 0 then []
    else
      Char.ofNat ('0'.toNat + rem * 10 / den) :: fracChars f (rem * 10 % den) den

/-- Python `f'{q}'` for the rationals this module handles. -/
def ratChars (q : ℚ) : List Char :=
  let sign : List Char := if q.num < 0 then ['-'] else []
  let na : ℕ := q.num.natAbs
  let ip : ℕ := na / q.den
  let fr : List Char := fracChars 25 (na % q.den) q.den
  sign ++ Nat.toDigits 10 ip ++ '.' :: (if fr = [] then ['0'] else fr)

/-- Python `'_'.join(parts)`. -/
def joinUnderscore : List (List Char) → List Char
  | [] => []
  | [p] => p
  | p :: rest => p ++ '_' :: joinUnderscore rest

/-- Body of `BlockDecoder._encode_block_string` (utils.py lines 375-395),
parameterised by the result of the `block.strides` attribute lookup so that
the hypothetical repaired variant can be stated as well.  The Python list
display evaluates its six elements in order, so the `'s%d%d'` element raises
(`none`) when the strides lookup raises or the list has no second element;
afterwards `0 < block.se_ratio <= 1` raises `TypeError` when `se_ratio` is
`None`. -/
def encodeCore (stridesVal : Option (List ℤ)) (block : BlockArgs) :
    Option (List Char) :=
  match stridesVal with
  | none => none
  | some strides =>
    match strides.get? 0, strides.get? 1 with
    | some s0, some s1 =>
      let base : List (List Char) :=
        ['r' :: intChars block.num_repeat,
         'k' :: intChars block.kernel_size,
         's' :: (intChars s0 ++ intChars s1),
         'e' :: intChars block.expand_ratio,
         'i' :: intChars block.input_filters,
         'o' :: intChars block.output_filters]
      match block.se_ratio with
      | none => none
      | some q =>
        let args1 :=
          if 0 < q ∧ q ≤ 1 then base ++ ['s' :: 'e' :: ratChars q] else base
        let args2 :=
          if block.id_skip = false then args1 ++ ["noskip".data] else args1
        some (joinUnderscore args2)
    | _, _ => none

/-- `BlockDecoder._encode_block_string` as written in the source: the
`block.strides` attribute lookup fails on every `BlockArgs`. -/
def encode_block_string (block : BlockArgs) : Option (List Char) :=
  encodeCore (blockStridesAttr block) block

/-- The same encoder with the attribute repaired to the record's actual
field `stride` (the repair the specification's open question contemplates). -/
def encode_block_string_fixed (block : BlockArgs) : Option (List Char) :=
  encodeCore (some block.stride) block

/- ------------------------------------------------------------------ -/
/- GlobalParams, the coefficient table, and get_model_params.          -/
/- ------------------------------------------------------------------ -/

/-- The `GlobalParams` namedtuple (utils.py lines 14-18); every field
defaults to `None`. -/
structure GlobalParams where
  width_coefficient : Option ℚ
  depth_coefficient : Option ℚ
  image_size : Option ℤ
  dropout_rate : Option ℚ
  num_classes : Option ℤ
  batch_norm_momentum : Option ℚ
  batch_norm_epsilon : Option ℚ
  drop_connect_rate : Option ℚ
  depth_divisor : Option ℤ
  min_depth : Option ℤ
  include_top : Option Bool
deriving DecidableEq

/-- A Python value that can be stored into a `GlobalParams` field by
`_replace` (the values this program ever passes: floats, ints, bools,
`None`). -/
inductive GPVal where
  | vq : ℚ → GPVal
  | vi : ℤ → GPVal
  | vb : Bool → GPVal
  | vnone : GPVal
deriving DecidableEq

/-- The eleven field names of `GlobalParams`. -/
inductive GPField where
  | width_coefficient
  | depth_coefficient
  | image_size
  | dropout_rate
  | num_classes
  | batch_norm_momentum
  | batch_norm_epsilon
  | drop_connect_rate
  | depth_divisor
  | min_depth
  | include_top
deriving DecidableEq

def fieldName : GPField → String
  | .width_coefficient => "width_coefficient"
  | .depth_coefficient => "depth_coefficient"
  | .image_size => "image_size"
  | .dropout_rate => "dropout_rate"
  | .num_classes => "num_classes"
  | .batch_norm_momentum => "batch_norm_momentum"
  | .batch_norm_epsilon => "batch_norm_epsilon"
  | .drop_connect_rate => "drop_connect_rate"
  | .depth_divisor => "depth_divisor"
  | .min_depth => "min_depth"
  | .include_top => "include_top"

/-- Lookup in a string-keyed association list, as a Python dict access
(shared by the coefficient table and the field-name table). -/
def lookupStr {α : Type} : List (String × α) → String → Option α
  | [], _ => none
  | (k, v) :: rest, n => if n = k then some v else lookupStr rest n

/-- The field names of the `GlobalParams` namedtuple, in declaration
order. -/
def gpFieldTable : List (String × GPField) :=
  [("width_coefficient", .width_coefficient),
   ("depth_coefficient", .depth_coefficient),
   ("image_size", .image_size),
   ("dropout_rate", .dropout_rate),
   ("num_classes", .num_classes),
   ("batch_norm_momentum", .batch_norm_momentum),
   ("batch_norm_epsilon", .batch_norm_epsilon),
   ("drop_connect_rate", .drop_connect_rate),
   ("depth_divisor", .depth_divisor),
   ("min_depth", .min_depth),
   ("include_top", .include_top)]

/-- Which `GlobalParams` field (if any) a string names; `none` models the
`ValueError` that `namedtuple._replace` raises on an unexpected field name. -/
def gpFieldOfName (k : String) : Option GPField :=
  lookupStr gpFieldTable k

def optQ : Option ℚ → GPVal
  | some q => .vq q
  | none => .vnone

def optI : Option ℤ → GPVal
  | some n => .vi n
  | none => .vnone

def optB : Option Bool → GPVal
  | some b => .vb b
  | none => .vnone

/-- Read one field of a `GlobalParams` back as a Python value. -/
def gpGetField (g : GlobalParams) : GPField → GPVal
  | .width_coefficient => optQ g.width_coefficient
  | .depth_coefficient => optQ g.depth_coefficient
  | .image_size => optI g.image_size
  | .dropout_rate => optQ g.dropout_rate
  | .num_classes => optI g.num_classes
  | .batch_norm_momentum => optQ g.batch_norm_momentum
  | .batch_norm_epsilon => optQ g.batch_norm_epsilon
  | .drop_connect_rate => optQ g.drop_connect_rate
  | .depth_divisor => optI g.depth_divisor
  | .min_depth => optI g.min_depth
  | .include_top => optB g.include_top

/-- Read the field a string names back as a Python value (`none` when the
string names no field). -/
def gpGet (g : GlobalParams) (k : String) : Option GPVal :=
  (gpFieldOfName k).map (gpGetField g)

/-- Whether a Python value has the kind this typed model stores in the given
field (Python's untyped namedtuple would accept anything; every value the
program actually stores is of the matching kind). -/
def kindOk : GPField → GPVal → Bool
  | _, .vnone => true
  | .width_coefficient, .vq _ => true
  | .depth_coefficient, .vq _ => true
  | .dropout_rate, .vq _ => true
  | .batch_norm_momentum, .vq _ => true
  | .batch_norm_epsilon, .vq _ => true
  | .drop_connect_rate, .vq _ => true
  | .image_size, .vi _ => true
  | .num_classes, .vi _ => true
  | .depth_divisor, .vi _ => true
  | .min_depth, .vi _ => true
  | .include_top, .vb _ => true
  | _, _ => false

/-- Store one value into one field (the single-field step of `_replace`);
`none` on a value whose kind this typed model cannot store in that field. -/
def gpSetField (g : GlobalParams) : GPField → GPVal → Option GlobalParams
  | .width_coefficient, .vq x => some { g with width_coefficient := some x }
  | .width_coefficient, .vnone => some { g with width_coefficient := none }
  | .depth_coefficient, .vq x => some { g with depth_coefficient := some x }
  | .depth_coefficient, .vnone => some { g with depth_coefficient := none }
  | .image_size, .vi x => some { g with image_size := some x }
  | .image_size, .vnone => some { g with image_size := none }
  | .dropout_rate, .vq x => some { g with dropout_rate := some x }
  | .dropout_rate, .vnone => some { g with dropout_rate := none }
  | .num_classes, .vi x => some { g with num_classes := some x }
  | .num_classes, .vnone => some { g with num_classes := none }
  | .batch_norm_momentum, .vq x => some { g with batch_norm_momentum := some x }
  | .batch_norm_momentum, .vnone => some { g with batch_norm_momentum := none }
  | .batch_norm_epsilon, .vq x => some { g with batch_norm_epsilon := some x }
  | .batch_norm_epsilon, .vnone => some { g with batch_norm_epsilon := none }
  | .drop_connect_rate, .vq x => some { g with drop_connect_rate := some x }
  | .drop_connect_rate, .vnone => some { g with drop_connect_rate := none }
  | .depth_divisor, .vi x => some { g with depth_divisor := some x }
  | .depth_divisor, .vnone => some { g with depth_divisor := none }
  | .min_depth, .vi x => some { g with min_depth := some x }
  | .min_depth, .vnone => some { g with min_depth := none }
  | .include_top, .vb x => some { g with include_top := some x }
  | .include_top, .vnone => some { g with include_top := none }
  | _, _ => none

/-- One keyword of `global_params._replace(**override_params)`:
`ValueError` (`none`) on a key that is not a field. -/
def pyReplaceStep (g : GlobalParams) (k : String) (v : GPVal) :
    Option GlobalParams :=
  match gpFieldOfName k with
  | none => none
  | some f => gpSetField g f v

/-- `global_params._replace(**override_params)`, the overrides dict given as
a key/value list. -/
def pyReplace (g : GlobalParams) : List (String × GPVal) → Option GlobalParams
  | [] => some g
  | (k, v) :: rest => (pyReplaceStep g k v).bind fun g2 => pyReplace g2 rest

/-- Last-wins lookup in an override list (Python dicts cannot repeat a key;
on a list with repeats, `_replace` applies them in order, so the last one
is the value that remains). -/
def ovrLookupLast : List (String × GPVal) → String → Option GPVal
  | [], _ => none
  | (k0, v0) :: rest, k =>
    match ovrLookupLast rest k with
    | some v => some v
    | none => if k0 = k then some v0 else none

/-- An override entry this typed model can apply: a known field name with a
value of that field's kind. -/
def entryValid : String × GPVal → Bool
  | (k, v) =>
    match gpFieldOfName k with
    | none => false
    | some f => kindOk f v

/-- Python `str.startswith`. -/
def pyStartsWith (pre s : String) : Bool :=
  pre.data.isPrefixOf s.data

/-- The `params_dict` of `efficientnet_params` (utils.py lines 429-440):
`model name ↦ (width_coefficient, depth_coefficient, resolution, dropout)`. -/
def efficientnet_params_table : List (String × (ℚ × ℚ × ℤ × ℚ)) :=
  [("efficientnet-b0", (1, 1, 112, qmk 1 5)),
   ("efficientnet-b1", (1, qmk 11 10, 240, qmk 1 5)),
   ("efficientnet-b2", (qmk 11 10, qmk 6 5, 260, qmk 3 10)),
   ("efficientnet-b3", (qmk 6 5, qmk 7 5, 300, qmk 3 10)),
   ("efficientnet-b4", (qmk 7 5, qmk 9 5, 380, qmk 2 5)),
   ("efficientnet-b5", (qmk 8 5, qmk 11 5, 456, qmk 2 5)),
   ("efficientnet-b6", (qmk 9 5, qmk 13 5, 528, qmk 1 2)),
   ("efficientnet-b7", (2, qmk 31 10, 600, qmk 1 2)),
   ("efficientnet-b8", (qmk 11 5, qmk 18 5, 672, qmk 1 2)),
   ("efficientnet-l2", (qmk 43 10, qmk 53 10, 800, qmk 1 2))]

/-- `efficientnet_params` (utils.py lines 422-441): exact-match lookup in
the fixed coefficient table; `none` models the `KeyError` on an absent
name. -/
def efficientnet_params (model_name : String) : Option (ℚ × ℚ × ℤ × ℚ) :=
  lookupStr efficientnet_params_table model_name

/-- The ten model names of the coefficient table. -/
def efficientnetTableNames : List String :=
  efficientnet_params_table.map Prod.fst

/-- The fixed 7-stage baseline block-string template of `efficientnet`
(utils.py lines 464-472). -/
def blocks_args_strings : List String :=
  ["r1_k3_s11_e1_i32_o16_se0.25",
   "r2_k3_s22_e6_i16_o24_se0.25",
   "r2_k5_s22_e6_i24_o40_se0.25",
   "r3_k3_s22_e6_i40_o80_se0.25",
   "r3_k5_s11_e6_i80_o112_se0.25",
   "r4_k5_s22_e6_i112_o192_se0.25",
   "r1_k3_s11_e6_i192_o320_se0.25"]

/-- `efficientnet` (utils.py lines 444-488): decode the baseline template
and build the `GlobalParams`; `none` if decoding raised. -/
def efficientnet (width_coefficient depth_coefficient : Option ℚ)
    (image_size : Option ℤ) (dropout_rate drop_connect_rate : ℚ)
    (num_classes : ℤ) (include_top : Bool) :
    Option (List BlockArgs × GlobalParams) :=
  (BlockDecoder_decode blocks_args_strings).map fun bs =>
    (bs,
      { width_coefficient := width_coefficient
        depth_coefficient := depth_coefficient
        image_size := image_size
        dropout_rate := some dropout_rate
        num_classes := some num_classes
        batch_norm_momentum := some (qmk 99 100)
        batch_norm_epsilon := some (qmk 1 1000)
        drop_connect_rate := some drop_connect_rate
        depth_divisor := some 8
        min_depth := none
        include_top := some include_top })

/-- The `GlobalParams` value `get_model_params` builds before overrides. -/
def gpBase (w d : ℚ) (s : ℤ) (p : ℚ) : GlobalParams :=
  { width_coefficient := some w
    depth_coefficient := some d
    image_size := some s
    dropout_rate := some p
    num_classes := some 1000
    batch_norm_momentum := some (qmk 99 100)
    batch_norm_epsilon := some (qmk 1 1000)
    drop_connect_rate := some (qmk 1 5)
    depth_divisor := some 8
    min_depth := none
    include_top := some true }

/-- The decode of the fixed 7-stage baseline template (the value
`BlockDecoder.decode` produces on `blocks_args_strings`, see
`baseline_decode`). -/
def baselineBlocks : List BlockArgs :=
  [⟨1, 3, [1], 1, 32, 16, some (qmk 1 4), true⟩,
   ⟨2, 3, [2], 6, 16, 24, some (qmk 1 4), true⟩,
   ⟨2, 5, [2], 6, 24, 40, some (qmk 1 4), true⟩,
   ⟨3, 3, [2], 6, 40, 80, some (qmk 1 4), true⟩,
   ⟨3, 5, [1], 6, 80, 112, some (qmk 1 4), true⟩,
   ⟨4, 5, [2], 6, 112, 192, some (qmk 1 4), true⟩,
   ⟨1, 3, [1], 6, 192, 320, some (qmk 1 4), true⟩]

/-- `get_model_params` (utils.py lines 491-509).  `none` models
`NotImplementedError` on a name without the `efficientnet` prefix, the
`KeyError` of `efficientnet_params` on a prefixed but unknown name, and the
`ValueError` of `_replace` on a bad override key. -/
def get_model_params (model_name : String)
    (override_params : List (String × GPVal)) :
    Option (List BlockArgs × GlobalParams) :=
  if pyStartsWith "efficientnet" model_name then
    match efficientnet_params model_name with
    | none => none
    | some (w, d, s, p) =>
      match efficientnet (some w) (some d) (some s) p (qmk 1 5) 1000 true with
      | none => none
      | some (blocks_args, global_params) =>
        if override_params.isEmpty then some (blocks_args, global_params)
        else
          (pyReplace global_params override_params).map fun g2 =>
            (blocks_args, g2)
  else none

/- ------------------------------------------------------------------ -/
/- round_filters (ScalingPolicy).                                      -/
/- ------------------------------------------------------------------ -/

/-- `round_filters` (utils.py lines 59-80), transcribed from the source:
`int(...)` is truncation toward zero (`pyTrunc`), Python `//` is floor
division (`Int.fdiv`).  `none` models the `TypeError` when `depth_divisor`
is `None` (reached only when the multiplier is truthy) and the
`ZeroDivisionError` when it is `0`. -/
def round_filters (filters : ℤ) (g : GlobalParams) : Option ℤ :=
  match g.width_coefficient with
  | none => some filters
  | some multiplier =>
    if multiplier = 0 then some filters
    else
      match g.depth_divisor with
      | none => none
      | some divisor =>
        if divisor = 0 then none
        else
          let fq : ℚ := qmul (qofInt filters) multiplier
          let min_depth : ℤ :=
            match g.min_depth with
            | none => divisor
            | some md => if md = 0 then divisor else md
          let new_filters : ℤ :=
            max min_depth
              (Int.fdiv (pyTrunc (qadd fq (qdivInt (qofInt divisor) 2))) divisor
                * divisor)
          some
            (if qofInt new_filters < qmul (qmk 9 10) fq then
              new_filters + divisor
            else new_filters)

/-- The rounding rule exactly as the specification's claim words it:
`max(effective_min, floor((scaled + divisor/2)/divisor)*divisor)`, plus one
divisor step when that value is below `0.9 * scaled` — with a genuine
`floor` where the source truncates toward zero.  The claim does not define
the rule when `depth_divisor` is unset or zero, so those guard cases mirror
the code. -/
def round_filters_spec (filters : ℤ) (g : GlobalParams) : Option ℤ :=
  match g.width_coefficient with
  | none => some filters
  | some multiplier =>
    if multiplier = 0 then some filters
    else
      match g.depth_divisor with
      | none => none
      | some divisor =>
        if divisor = 0 then none
        else
          let fq : ℚ := qmul (qofInt filters) multiplier
          let min_depth : ℤ :=
            match g.min_depth with
            | none => divisor
            | some md => if md = 0 then divisor else md
          let new_filters : ℤ :=
            max min_depth
              (qfloor (qdivInt (qadd fq (qdivInt (qofInt divisor) 2)) divisor)
                * divisor)
          some
            (if qofInt new_filters < qmul (qmk 9 10) fq then
              new_filters + divisor
            else new_filters)

/-- A `GlobalParams` on which the source's truncation toward zero and the
claim's `floor` give different results: `width_coefficient = -52.5`,
`depth_divisor = 8`, `min_depth = -1000`. -/
def gpTruncVsFloor : GlobalParams :=
  { width_coefficient := some (qmk (-105) 2)
    depth_coefficient := none
    image_size := none
    dropout_rate := none
    num_classes := none
    batch_norm_momentum := none
    batch_norm_epsilon := none
    drop_connect_rate := none
    depth_divisor := some 8
    min_depth := some (-1000)
    include_top := none }

/- ------------------------------------------------------------------ -/
/- get_width_and_height_from_size (SizeMath).                          -/
/- ------------------------------------------------------------------ -/

/-- The possible Python arguments of `get_width_and_height_from_size`:
an int, a list or tuple of ints, or a value of any other type. -/
inductive PySize where
  | int : ℤ → PySize
  | list : List ℤ → PySize
  | tuple : List ℤ → PySize
  | float : ℚ → PySize
  | str : String → PySize
  | pynone : PySize
deriving DecidableEq

/-- `get_width_and_height_from_size` (utils.py lines 122-134): an int `x`
returns the pair `(x, x)` (modelled as a two-element list), a list or tuple
is returned unchanged whatever its length, and anything else raises
`TypeError` (`none`). -/
def get_width_and_height_from_size : PySize → Option (List ℤ)
  | .int n => some [n, n]
  | .list l => some l
  | .tuple l => some l
  | _ => none

/- ------------------------------------------------------------------ -/
/- SAME padding (AdaptivePadding).                                     -/
/- ------------------------------------------------------------------ -/

/-- `math.ceil(a / b)` on integers, for a positive divisor. -/
def ceilDivInt (a b : ℤ) : ℤ :=
  -(Int.fdiv (-a) b)

/-- The `(left, right, top, bottom)` padding amounts that
`Conv2dDynamicSamePadding.forward` (utils.py lines 188-202) passes to
`F.pad`, as a function of the runtime input size, kernel, stride and
dilation. -/
def conv2dDynamicPad (ih iw kh kw sh sw d0 d1 : ℤ) : ℤ × ℤ × ℤ × ℤ :=
  let oh := ceilDivInt ih sh
  let ow := ceilDivInt iw sw
  let pad_h := max ((oh - 1) * sh + (kh - 1) * d0 + 1 - ih) 0
  let pad_w := max ((ow - 1) * sw + (kw - 1) * d1 + 1 - iw) 0
  (Int.fdiv pad_w 2, pad_w - Int.fdiv pad_w 2,
   Int.fdiv pad_h 2, pad_h - Int.fdiv pad_h 2)

/-- The `(left, right, top, bottom)` amounts of the `nn.ZeroPad2d` module
that `Conv2dStaticSamePadding.__init__` (utils.py lines 210-237) freezes at
construction, as a function of the declared image size, kernel, stride and
dilation. -/
def conv2dStaticPad (ih iw kh kw sh sw d0 d1 : ℤ) : ℤ × ℤ × ℤ × ℤ :=
  let oh := ceilDivInt ih sh
  let ow := ceilDivInt iw sw
  let pad_h := max ((oh - 1) * sh + (kh - 1) * d0 + 1 - ih) 0
  let pad_w := max ((ow - 1) * sw + (kw - 1) * d1 + 1 - iw) 0
  (Int.fdiv pad_w 2, pad_w - Int.fdiv pad_w 2,
   Int.fdiv pad_h 2, pad_h - Int.fdiv pad_h 2)

/-- `F.pad` / `nn.ZeroPad2d` on one spatial plane: pad with zeros on the
left, right, top and bottom. -/
def pad2d (l r t b : ℕ) (x : List (List ℤ)) : List (List ℤ) :=
  let w := (x.headD []).length + l + r
  List.replicate t (List.replicate w 0)
    ++ x.map (fun row => List.replicate l (0 : ℤ) ++ row ++ List.replicate r 0)
    ++ List.replicate b (List.replicate w 0)

/-- The tensor that `Conv2dDynamicSamePadding.forward` hands to the
underlying (external) `F.conv2d`: the input, padded only when some padding
amount is positive, with amounts recomputed from the runtime input size. -/
def conv2dDynamicForwardInput (kh kw sh sw d0 d1 : ℤ) (x : List (List ℤ)) :
    List (List ℤ) :=
  let ih : ℤ := x.length
  let iw : ℤ := (x.headD []).length
  let oh := ceilDivInt ih sh
  let ow := ceilDivInt iw sw
  let pad_h := max ((oh - 1) * sh + (kh - 1) * d0 + 1 - ih) 0
  let pad_w := max ((ow - 1) * sw + (kw - 1) * d1 + 1 - iw) 0
  if 0 < pad_h ∨ 0 < pad_w then
    pad2d (Int.fdiv pad_w 2).toNat (pad_w - Int.fdiv pad_w 2).toNat
      (Int.fdiv pad_h 2).toNat (pad_h - Int.fdiv pad_h 2).toNat x
  else x

/-- The `static_padding` module frozen by `Conv2dStaticSamePadding.__init__`:
`some` amounts for `nn.ZeroPad2d`, `none` for `nn.Identity`. -/
def conv2dStaticPadModule (ih iw kh kw sh sw d0 d1 : ℤ) :
    Option (ℕ × ℕ × ℕ × ℕ) :=
  let oh := ceilDivInt ih sh
  let ow := ceilDivInt iw sw
  let pad_h := max ((oh - 1) * sh + (kh - 1) * d0 + 1 - ih) 0
  let pad_w := max ((ow - 1) * sw + (kw - 1) * d1 + 1 - iw) 0
  if 0 < pad_h ∨ 0 < pad_w then
    some ((Int.fdiv pad_w 2).toNat, (pad_w - Int.fdiv pad_w 2).toNat,
      (Int.fdiv pad_h 2).toNat, (pad_h - Int.fdiv pad_h 2).toNat)
  else none

/-- The tensor that `Conv2dStaticSamePadding.forward` hands to the
underlying `F.conv2d`: the frozen padding module applied to the input. -/
def conv2dStaticForwardInput (ih iw kh kw sh sw d0 d1 : ℤ)
    (x : List (List ℤ)) : List (List ℤ) :=
  match conv2dStaticPadModule ih iw kh kw sh sw d0 d1 with
  | some (l, r, t, b) => pad2d l r t b x
  | none => x

/-- Modelled from the spec: `required_padding(input, output, stride, kernel,
dilation)` — the per-axis padding formula exactly as the specification
states it. -/
def required_padding (inputDim outputDim stride kernelDim dil : ℤ) : ℤ :=
  max ((outputDim - 1) * stride + (kernelDim - 1) * dil + 1 - inputDim) 0

/-- Modelled from the spec: the output spatial size of the external
convolution (`F.conv2d`) on an input of size `n` with kernel `k`, stride
`s` and dilation `d` — the standard contract of the external operator the
padding layers delegate to. -/
def conv2d_out_dim (n k s d : ℤ) : ℤ :=
  Int.fdiv (n - d * (k - 1) - 1) s + 1

/- ------------------------------------------------------------------ -/
/- The failure condition of claim C6.                                  -/
/- ------------------------------------------------------------------ -/

/-- The condition of claim C6 on an options dict: the stride value has two
unequal digits (or the key `'s'` is missing), or one of the other required
keys `r`, `k`, `e`, `i`, `o` is missing. -/
def failCondFromOptions (options : List (List Char × List Char)) : Bool :=
  (match dictGet options ['s'] with
   | none => true
   | some sv =>
     match sv with
     | [c1, c2] => c1.isDigit && c2.isDigit && c1 != c2
     | _ => false)
  || (dictGet options ['r']).isNone
  || (dictGet options ['k']).isNone
  || (dictGet options ['e']).isNone
  || (dictGet options ['i']).isNone
  || (dictGet options ['o']).isNone

/-- The condition of claim C6 on a block string: the stride token has two
unequal digits, or one of the required keys `r`, `k`, `s`, `e`, `i`, `o` is
missing from the parsed options. -/
def decodeFailCond (cs : List Char) : Bool :=
  failCondFromOptions (parseOptions cs)

/- ------------------------------------------------------------------ -/
/- Bridge lemmas: the kernel-evaluable rational layer agrees with ℚ.   -/
/- ------------------------------------------------------------------ -/

theorem gcdFuel_eq_gcd :
    ∀ fuel m k : ℕ, m < fuel → gcdFuel fuel m k = Nat.gcd m k := by
  intro fuel
  induction fuel with
  | zero => intro m k h; omega
  | succ f ih =>
    intro m k hm
    cases m with
    | zero => simp [gcdFuel]
    | succ m0 =>
      rw [gcdFuel, Nat.gcd_succ]
      exact ih _ _ (by have := @Nat.mod_lt k (m0 + 1) (by omega); omega)

theorem qmk_eq_divInt (n d : ℤ) (hd : d ≠ 0) : qmk n d = Rat.divInt n d := by
  have core : ∀ a b : ℕ, 0 < b →
      Rat.divInt ((a / Nat.gcd a b : ℕ) : ℤ) ((b / Nat.gcd a b : ℕ) : ℤ)
        = Rat.divInt (a : ℤ) (b : ℤ) := by
    intro a b hb
    have hG : 0 < Nat.gcd a b := Nat.gcd_pos_of_pos_right a hb
    have h1 : ((a / Nat.gcd a b : ℕ) : ℤ) * (Nat.gcd a b : ℤ) = (a : ℤ) := by
      exact_mod_cast Nat.div_mul_cancel (Nat.gcd_dvd_left a b)
    have h2 : ((b / Nat.gcd a b : ℕ) : ℤ) * (Nat.gcd a b : ℤ) = (b : ℤ) := by
      exact_mod_cast Nat.div_mul_cancel (Nat.gcd_dvd_right a b)
    calc
      Rat.divInt ((a / Nat.gcd a b : ℕ) : ℤ) ((b / Nat.gcd a b : ℕ) : ℤ)
          = Rat.divInt (((a / Nat.gcd a b : ℕ) : ℤ) * (Nat.gcd a b : ℤ))
              (((b / Nat.gcd a b : ℕ) : ℤ) * (Nat.gcd a b : ℤ)) :=
        (Rat.divInt_mul_right (by exact_mod_cast hG.ne')).symm
      _ = Rat.divInt (a : ℤ) (b : ℤ) := by rw [h1, h2]
  unfold qmk
  rw [dif_neg hd]
  simp only []
  split_ifs with h1 h2 h3
  · -- d < 0, 0 ≤ -n
    rw [Rat.mk'_eq_divInt, gcdFuel_eq_gcd _ _ _ (Nat.lt_succ_self _),
      core _ _ (by omega)]
    have e1 : (((-n).natAbs : ℕ) : ℤ) = -n := by omega
    have e2 : ((d.natAbs : ℕ) : ℤ) = -d := by omega
    rw [e1, e2, Rat.divInt_neg, neg_neg]
  · -- d < 0, n positive
    rw [Rat.mk'_eq_divInt, ← Rat.neg_divInt,
      gcdFuel_eq_gcd _ _ _ (Nat.lt_succ_self _), core _ _ (by omega)]
    have e1 : (((-n).natAbs : ℕ) : ℤ) = n := by omega
    have e2 : ((d.natAbs : ℕ) : ℤ) = -d := by omega
    rw [e1, e2, Rat.divInt_neg, Rat.neg_divInt, neg_neg]
  · -- 0 ≤ d, 0 ≤ n
    rw [Rat.mk'_eq_divInt, gcdFuel_eq_gcd _ _ _ (Nat.lt_succ_self _),
      core _ _ (by omega)]
    have e1 : ((n.natAbs : ℕ) : ℤ) = n := by omega
    have e2 : ((d.natAbs : ℕ) : ℤ) = d := by omega
    rw [e1, e2]
  · -- 0 ≤ d, n negative
    rw [Rat.mk'_eq_divInt, ← Rat.neg_divInt,
      gcdFuel_eq_gcd _ _ _ (Nat.lt_succ_self _), core _ _ (by omega)]
    have e1 : ((n.natAbs : ℕ) : ℤ) = -n := by omega
    have e2 : ((d.natAbs : ℕ) : ℤ) = d := by omega
    rw [e1, e2, Rat.neg_divInt, neg_neg]

theorem qmk_eq_div (n d : ℤ) (hd : d ≠ 0) : qmk n d = (n : ℚ) / (d : ℚ) := by
  rw [qmk_eq_divInt n d hd, Rat.divInt_eq_div]

theorem qofInt_eq (n : ℤ) : qofInt n = (n : ℚ) := by
  unfold qofInt
  rw [Rat.mk'_eq_divInt]
  simp [Rat.divInt_one]

theorem qadd_eq (a b : ℚ) : qadd a b = a + b := by
  have ha : ((a.den : ℤ) : ℚ) ≠ 0 := by
    exact_mod_cast (Nat.pos_of_ne_zero a.den_nz).ne'
  have hb : ((b.den : ℤ) : ℚ) ≠ 0 := by
    exact_mod_cast (Nat.pos_of_ne_zero b.den_nz).ne'
  unfold qadd
  rw [qmk_eq_div _ _ (by
    have := a.den_nz; have := b.den_nz
    intro h
    rcases mul_eq_zero.mp h with h1 | h1 <;> omega)]
  have e : ∀ q : ℚ, ((q.num : ℚ) / ((q.den : ℤ) : ℚ)) = q := by
    intro q
    rw [show ((q.den : ℤ) : ℚ) = ((q.den : ℕ) : ℚ) by push_cast; ring]
    exact Rat.num_div_den q
  conv_rhs => rw [← e a, ← e b]
  rw [div_add_div _ _ ha hb]
  push_cast
  ring_nf

theorem qmul_eq (a b : ℚ) : qmul a b = a * b := by
  have e : ∀ q : ℚ, ((q.num : ℚ) / ((q.den : ℤ) : ℚ)) = q := by
    intro q
    rw [show ((q.den : ℤ) : ℚ) = ((q.den : ℕ) : ℚ) by push_cast; ring]
    exact Rat.num_div_den q
  unfold qmul
  rw [qmk_eq_div _ _ (by
    have := a.den_nz; have := b.den_nz
    intro h
    rcases mul_eq_zero.mp h with h1 | h1 <;> omega)]
  conv_rhs => rw [← e a, ← e b]
  rw [div_mul_div_comm]
  push_cast
  ring_nf

theorem qdivInt_eq (a : ℚ) (d : ℤ) (hd : d ≠ 0) :
    qdivInt a d = a / (d : ℚ) := by
  have e : ((a.num : ℚ) / ((a.den : ℤ) : ℚ)) = a := by
    rw [show ((a.den : ℤ) : ℚ) = ((a.den : ℕ) : ℚ) by push_cast; ring]
    exact Rat.num_div_den a
  unfold qdivInt
  rw [qmk_eq_div _ _ (by
    have := a.den_nz
    intro h
    rcases mul_eq_zero.mp h with h1 | h1 <;> omega)]
  conv_rhs => rw [← e]
  rw [div_div]
  push_cast
  ring_nf

theorem qfloor_eq (q : ℚ) : qfloor q = ⌊q⌋ := by
  unfold qfloor
  rw [Int.fdiv_eq_ediv _ (by positivity)]
  rw [← Rat.floor_intCast_div_natCast q.num q.den, Rat.num_div_den]

theorem floor_div_int_pos (x : ℚ) (d : ℤ) (hd : 0 < d) :
    ⌊x / (d : ℚ)⌋ = Int.fdiv ⌊x⌋ d := by
  rw [Int.fdiv_eq_ediv _ hd.le]
  have hr1 : 0 ≤ ⌊x⌋ % d := Int.emod_nonneg _ hd.ne'
  have hr2 : ⌊x⌋ % d < d := Int.emod_lt_of_pos _ hd
  have heq : d * (⌊x⌋ / d) + ⌊x⌋ % d = ⌊x⌋ := Int.ediv_add_emod _ _
  have hdq : (0 : ℚ) < (d : ℚ) := by exact_mod_cast hd
  have hle : d * (⌊x⌋ / d) ≤ ⌊x⌋ := by omega
  have hlt : (⌊x⌋ : ℤ) + 1 ≤ d * (⌊x⌋ / d) + d := by omega
  rw [Int.floor_eq_iff]
  constructor
  · rw [le_div_iff hdq]
    calc
      ((⌊x⌋ / d : ℤ) : ℚ) * (d : ℚ) = ((d * (⌊x⌋ / d) : ℤ) : ℚ) := by
        push_cast; ring
      _ ≤ ((⌊x⌋ : ℤ) : ℚ) := by exact_mod_cast hle
      _ ≤ x := Int.floor_le x
  · rw [div_lt_iff hdq]
    calc
      x < ((⌊x⌋ : ℤ) : ℚ) + 1 := Int.lt_floor_add_one x
      _ ≤ ((d * (⌊x⌋ / d) + d : ℤ) : ℚ) := by
        calc
          ((⌊x⌋ : ℤ) : ℚ) + 1 = (((⌊x⌋ : ℤ) + 1 : ℤ) : ℚ) := by push_cast; ring
          _ ≤ ((d * (⌊x⌋ / d) + d : ℤ) : ℚ) := by exact_mod_cast hlt
      _ = (((⌊x⌋ / d : ℤ) : ℚ) + 1) * (d : ℚ) := by push_cast; ring

theorem pyTrunc_eq_qfloor (q : ℚ) (h : 0 ≤ q) : pyTrunc q = qfloor q := by
  unfold pyTrunc
  rw [if_neg (not_lt.mpr h)]

theorem q_quarter_eq : (1 / 4 : ℚ) = qmk 1 4 := by
  rw [qmk_eq_div 1 4 (by norm_num)]; norm_num

theorem q_fifth_eq : (1 / 5 : ℚ) = qmk 1 5 := by
  rw [qmk_eq_div 1 5 (by norm_num)]; norm_num

theorem q_bnm_eq : (99 / 100 : ℚ) = qmk 99 100 := by
  rw [qmk_eq_div 99 100 (by norm_num)]; norm_num

theorem q_eps_eq : (1 / 1000 : ℚ) = qmk 1 1000 := by
  rw [qmk_eq_div 1 1000 (by norm_num)]; norm_num

/- ------------------------------------------------------------------ -/
/- Claim theorems.                                                     -/
/- ------------------------------------------------------------------ -/

/-- Claim C1 (code_bug evaluation): decoding the baseline block string
succeeds, but `_encode_block_string` fails on the decoded record — the
source reads `block.strides` while the `BlockArgs` field is named `stride`
(`AttributeError`), and even with the attribute repaired the decoded stride
list has a single element, so `strides[1]` fails (`IndexError`).  Hence
`encode(decode(s))` never produces a string, against the round-trip the
specification requires. -/
theorem encode_decode_roundtrip_fails :
    decode_block_string ("r1_k3_s11_e1_i32_o16_se0.25").data =
      some ⟨1, 3, [1], 1, 32, 16, some (1 / 4), true⟩
    ∧ encode_block_string ⟨1, 3, [1], 1, 32, 16, some (1 / 4), true⟩ = none
    ∧ encode_block_string_fixed ⟨1, 3, [1], 1, 32, 16, some (1 / 4), true⟩
        = none := by
  rw [q_quarter_eq]
  exact ⟨by decide, by decide, by decide⟩

/-- Claim C5: decoding `'r1_k3_s11_e1_i32_o16_se0.25'` yields
`BlockArgs(num_repeat=1, kernel_size=3, stride=[1], expand_ratio=1,
input_filters=32, output_filters=16, se_ratio=0.25, id_skip=True)`, and
decoding `'r2_k3_s22_e6_i16_o24_se0.25'` yields a record with
`stride=[2]`. -/
theorem decode_block_string_examples :
    decode_block_string ("r1_k3_s11_e1_i32_o16_se0.25").data =
      some ⟨1, 3, [1], 1, 32, 16, some (1 / 4), true⟩
    ∧ decode_block_string ("r2_k3_s22_e6_i16_o24_se0.25").data =
      some ⟨2, 3, [2], 6, 16, 24, some (1 / 4), true⟩
    ∧ (decode_block_string ("r2_k3_s22_e6_i16_o24_se0.25").data).map
        BlockArgs.stride = some [2] := by
  rw [q_quarter_eq]
  exact ⟨by decide, by decide, by decide⟩

/-- Claim C9 counterexample: `get_width_and_height_from_size` does not fail
on a 3-element list — it returns the list unchanged (the code has no length
check on sequences), refuting "fails with InvalidArgument for every
non-2-element sequence". -/
theorem get_width_and_height_no_fail_on_triple :
    get_width_and_height_from_size (PySize.list [1, 2, 3]) = some [1, 2, 3]
    ∧ get_width_and_height_from_size (PySize.list [1, 2, 3]) ≠ none :=
  ⟨rfl, by decide⟩

/-- Claim C9 amended: an int `x` yields `(x, x)`; a list or tuple is
returned unchanged, whatever its length; any other input fails with
`TypeError`. -/
theorem get_width_and_height_spec :
    (∀ n : ℤ, get_width_and_height_from_size (PySize.int n) = some [n, n])
    ∧ (∀ l : List ℤ, get_width_and_height_from_size (PySize.list l) = some l)
    ∧ (∀ l : List ℤ, get_width_and_height_from_size (PySize.tuple l) = some l)
    ∧ (∀ q : ℚ, get_width_and_height_from_size (PySize.float q) = none)
    ∧ (∀ s : String, get_width_and_height_from_size (PySize.str s) = none)
    ∧ get_width_and_height_from_size PySize.pynone = none :=
  ⟨fun _ => rfl, fun _ => rfl, fun _ => rfl, fun _ => rfl, fun _ => rfl, rfl⟩

theorem lookupStr_mem {α : Type} :
    ∀ (t : List (String × α)) (n : String) (x : α),
      lookupStr t n = some x → n ∈ t.map Prod.fst := by
  intro t
  induction t with
  | nil => intro n x h; exact Option.noConfusion h
  | cons hd tl ih =>
    intro n x h
    rw [lookupStr] at h
    by_cases he : n = hd.1
    · rw [List.map_cons]
      exact he ▸ List.Mem.head _
    · rw [if_neg he] at h
      exact List.Mem.tail _ (ih n x h)

theorem lookupStr_isSome_of_mem {α : Type} :
    ∀ (t : List (String × α)) (n : String),
      n ∈ t.map Prod.fst → (lookupStr t n).isSome = true := by
  intro t
  induction t with
  | nil => intro n h; exact absurd h (List.not_mem_nil n)
  | cons hd tl ih =>
    intro n h
    rw [lookupStr]
    by_cases he : n = hd.1
    · rw [if_pos he]; rfl
    · rw [if_neg he]
      rw [List.map_cons, List.mem_cons] at h
      exact ih n (h.resolve_left he)

theorem efficientnet_params_mem (name : String) (x : ℚ × ℚ × ℤ × ℚ)
    (h : efficientnet_params name = some x) : name ∈ efficientnetTableNames :=
  lookupStr_mem efficientnet_params_table name x h

/-- Claim C7: the coefficient lookup returns exactly `(1.0, 1.0, 112, 0.2)`
for `'efficientnet-b0'`; any name outside the fixed ten-entry table
(b0–b8, l2) — for example `'unknown-model'` — fails with `KeyError`. -/
theorem efficientnet_params_spec :
    efficientnet_params "efficientnet-b0" = some (1, 1, 112, 1 / 5)
    ∧ efficientnet_params "unknown-model" = none
    ∧ (∀ name, name ∉ efficientnetTableNames → efficientnet_params name = none)
    ∧ (∀ name, name ∈ efficientnetTableNames →
        (efficientnet_params name).isSome = true)
    ∧ efficientnetTableNames.length = 10 := by
  rw [q_fifth_eq]
  refine ⟨by decide, by decide, ?_, ?_, by decide⟩
  · intro name h
    cases hx : efficientnet_params name with
    | none => rfl
    | some x => exact absurd (efficientnet_params_mem name x hx) h
  · intro name h
    exact lookupStr_isSome_of_mem efficientnet_params_table name h

/-- Witness for C7: a concrete name outside the table fails, and a concrete
name inside the table succeeds. -/
theorem efficientnet_params_spec_witness :
    ("unknown-model" ∉ efficientnetTableNames
      ∧ efficientnet_params "unknown-model" = none)
    ∧ ("efficientnet-b3" ∈ efficientnetTableNames
      ∧ (efficientnet_params "efficientnet-b3").isSome = true) :=
  ⟨⟨by decide, efficientnet_params_spec.2.2.1 "unknown-model" (by decide)⟩,
   ⟨by decide, efficientnet_params_spec.2.2.2.1 "efficientnet-b3" (by decide)⟩⟩

/-- Claim C2: whenever the static variant's declared image size equals the
dynamic variant's runtime input size, the two `SAME`-padding convolution
variants compute exactly the same `(left, right, top, bottom)` padding
amounts, and hand the very same padded tensor to the underlying (external)
`F.conv2d` — so, the convolution parameters being identical, the outputs
are identical. -/
theorem static_dynamic_padding_agree :
    (∀ ih iw kh kw sh sw d0 d1 : ℤ, 0 < sh → 0 < sw →
      conv2dStaticPad ih iw kh kw sh sw d0 d1
        = conv2dDynamicPad ih iw kh kw sh sw d0 d1)
    ∧ (∀ (kh kw sh sw d0 d1 : ℤ) (x : List (List ℤ)), 0 < sh → 0 < sw →
      conv2dStaticForwardInput (x.length : ℤ) (((x.headD []).length : ℕ) : ℤ)
          kh kw sh sw d0 d1 x
        = conv2dDynamicForwardInput kh kw sh sw d0 d1 x) := by
  constructor
  · intro ih iw kh kw sh sw d0 d1 _ _
    rfl
  · intro kh kw sh sw d0 d1 x _ _
    simp only [conv2dStaticForwardInput, conv2dStaticPadModule,
      conv2dDynamicForwardInput]
    split_ifs <;> rfl

/-- Witness for C2, at the representative kernel 3 / stride 2
configuration of the claim and a concrete input. -/
theorem static_dynamic_padding_agree_witness :
    ((0 : ℤ) < 2
      ∧ conv2dStaticPad 224 224 3 3 2 2 1 1 = conv2dDynamicPad 224 224 3 3 2 2 1 1)
    ∧ conv2dStaticForwardInput (([[1, 2], [3, 4]] : List (List ℤ)).length : ℤ)
        (((([[1, 2], [3, 4]] : List (List ℤ)).headD []).length : ℕ) : ℤ)
        3 3 2 2 1 1 [[1, 2], [3, 4]]
      = conv2dDynamicForwardInput 3 3 2 2 1 1 [[1, 2], [3, 4]] :=
  ⟨⟨by decide,
    static_dynamic_padding_agree.1 224 224 3 3 2 2 1 1 (by decide) (by decide)⟩,
   static_dynamic_padding_agree.2 3 3 2 2 1 1 [[1, 2], [3, 4]]
     (by decide) (by decide)⟩

/-- Claim C4: the dynamic variant's padding per axis is exactly
`max((output - 1) * stride + (kernel - 1) * dilation + 1 - input, 0)` with
`output = ceil(input / stride)`, split as `pad // 2` before and
`pad - pad // 2` after; at a 224×224 input with kernel 3, stride 2 and
dilation 1 this is `pad_h = pad_w = 1`, split `(0, 1)` on each axis, the
computed output size is `112`, and the external convolution applied to the
padded input also yields `112`. -/
theorem required_padding_spec :
    (∀ ih iw kh kw sh sw d0 d1 : ℤ, 0 < sh → 0 < sw →
      conv2dDynamicPad ih iw kh kw sh sw d0 d1
        = (Int.fdiv (required_padding iw (ceilDivInt iw sw) sw kw d1) 2,
           required_padding iw (ceilDivInt iw sw) sw kw d1
             - Int.fdiv (required_padding iw (ceilDivInt iw sw) sw kw d1) 2,
           Int.fdiv (required_padding ih (ceilDivInt ih sh) sh kh d0) 2,
           required_padding ih (ceilDivInt ih sh) sh kh d0
             - Int.fdiv (required_padding ih (ceilDivInt ih sh) sh kh d0) 2))
    ∧ required_padding 224 (ceilDivInt 224 2) 2 3 1 = 1
    ∧ ceilDivInt 224 2 = 112
    ∧ conv2dDynamicPad 224 224 3 3 2 2 1 1 = (0, 1, 0, 1)
    ∧ conv2d_out_dim (224 + required_padding 224 (ceilDivInt 224 2) 2 3 1) 3 2 1
        = 112 := by
  refine ⟨?_, by decide, by decide, by decide, by decide⟩
  intro ih iw kh kw sh sw d0 d1 _ _
  rfl

/-- Witness for C4: the general formula instantiated at the concrete
224×224, kernel 3, stride 2, dilation 1 configuration. -/
theorem required_padding_spec_witness :
    (0 : ℤ) < 2
    ∧ conv2dDynamicPad 224 224 3 3 2 2 1 1
        = (Int.fdiv (required_padding 224 (ceilDivInt 224 2) 2 3 1) 2,
           required_padding 224 (ceilDivInt 224 2) 2 3 1
             - Int.fdiv (required_padding 224 (ceilDivInt 224 2) 2 3 1) 2,
           Int.fdiv (required_padding 224 (ceilDivInt 224 2) 2 3 1) 2,
           required_padding 224 (ceilDivInt 224 2) 2 3 1
             - Int.fdiv (required_padding 224 (ceilDivInt 224 2) 2 3 1) 2) :=
  ⟨by decide, required_padding_spec.1 224 224 3 3 2 2 1 1 (by decide) (by decide)⟩

theorem bind_none_right {α β : Type} (o : Option α) (f : α → Option β)
    (h : ∀ a, f a = none) : o.bind f = none := by
  cases o <;> simp [h]

set_option maxHeartbeats 3200000 in
theorem decodeFromOptions_none (cs : List Char)
    (options : List (List Char × List Char))
    (h : failCondFromOptions options = true) :
    decodeFromOptions cs options = none := by
  simp only [failCondFromOptions, Bool.or_eq_true] at h
  unfold decodeFromOptions
  rcases h with ((((h | h) | h) | h) | h) | h
  · -- stride key missing, or stride value is two unequal digits
    cases hsv : dictGet options ['s'] with
    | none => rfl
    | some sv =>
      rw [hsv] at h
      simp only [Option.some_bind]
      match sv, h with
      | [c1, c2], h =>
        simp only [Bool.and_eq_true, bne_iff_ne] at h
        have hne : ¬(strideAssertOk [c1, c2] = true) := by
          simp only [strideAssertOk, beq_iff_eq]
          exact h.2
        rw [if_neg hne]
  · -- 'r' missing
    rw [Option.isNone_iff_eq_none] at h
    cases hsv : dictGet options ['s'] with
    | none => rfl
    | some sv =>
      simp only [Option.some_bind]
      by_cases hok : strideAssertOk sv = true
      · rw [if_pos hok, h]; rfl
      · rw [if_neg hok]
  · -- 'k' missing
    rw [Option.isNone_iff_eq_none] at h
    cases hsv : dictGet options ['s'] with
    | none => rfl
    | some sv =>
      simp only [Option.some_bind]
      by_cases hok : strideAssertOk sv = true
      · rw [if_pos hok]
        apply bind_none_right; intro rv
        apply bind_none_right; intro r
        rw [h]; rfl
      · rw [if_neg hok]
  · -- 'e' missing
    rw [Option.isNone_iff_eq_none] at h
    cases hsv : dictGet options ['s'] with
    | none => rfl
    | some sv =>
      simp only [Option.some_bind]
      by_cases hok : strideAssertOk sv = true
      · rw [if_pos hok]
        apply bind_none_right; intro rv
        apply bind_none_right; intro r
        apply bind_none_right; intro kv
        apply bind_none_right; intro k
        apply bind_none_right; intro sc
        apply bind_none_right; intro s0
        rw [h]; rfl
      · rw [if_neg hok]
  · -- 'i' missing
    rw [Option.isNone_iff_eq_none] at h
    cases hsv : dictGet options ['s'] with
    | none => rfl
    | some sv =>
      simp only [Option.some_bind]
      by_cases hok : strideAssertOk sv = true
      · rw [if_pos hok]
        apply bind_none_right; intro rv
        apply bind_none_right; intro r
        apply bind_none_right; intro kv
        apply bind_none_right; intro k
        apply bind_none_right; intro sc
        apply bind_none_right; intro s0
        apply bind_none_right; intro ev
        apply bind_none_right; intro e
        rw [h]; rfl
      · rw [if_neg hok]
  · -- 'o' missing
    rw [Option.isNone_iff_eq_none] at h
    cases hsv : dictGet options ['s'] with
    | none => rfl
    | some sv =>
      simp only [Option.some_bind]
      by_cases hok : strideAssertOk sv = true
      · rw [if_pos hok]
        apply bind_none_right; intro rv
        apply bind_none_right; intro r
        apply bind_none_right; intro kv
        apply bind_none_right; intro k
        apply bind_none_right; intro sc
        apply bind_none_right; intro s0
        apply bind_none_right; intro ev
        apply bind_none_right; intro e
        apply bind_none_right; intro iv
        apply bind_none_right; intro i
        rw [h]; rfl
      · rw [if_neg hok]

/-- Claim C6: decoding fails (returns no `BlockArgs`) whenever the stride
token carries two unequal digits, or any of the required keys `r`, `k`,
`s`, `e`, `i`, `o` is missing from the parsed options. -/
theorem decode_fails_on_bad_spec :
    ∀ cs : List Char, decodeFailCond cs = true → decode_block_string cs = none :=
  fun cs h => decodeFromOptions_none cs (parseOptions cs) h

/-- Witness for C6: `'r1_k3_s12_e1_i32_o16'` has unequal stride digits, and
decoding it indeed fails. -/
theorem decode_fails_on_bad_spec_witness :
    decodeFailCond ("r1_k3_s12_e1_i32_o16").data = true
    ∧ decode_block_string ("r1_k3_s12_e1_i32_o16").data = none :=
  ⟨by decide, decode_fails_on_bad_spec _ (by decide)⟩

/-- Claim C3 counterexample: on `filters = 1` and a `GlobalParams` with
`width_coefficient = -52.5`, `depth_divisor = 8`, `min_depth = -1000`, the
source (`int()` truncation toward zero) returns `-40` while the claim's
formula (a genuine `floor`) yields `-48` — the claim, quantified over every
integer `filters` and every `GlobalParams`, is false as stated. -/
theorem round_filters_trunc_vs_floor :
    round_filters 1 gpTruncVsFloor = some (-40)
    ∧ round_filters_spec 1 gpTruncVsFloor = some (-48)
    ∧ round_filters 1 gpTruncVsFloor ≠ round_filters_spec 1 gpTruncVsFloor := by
  exact ⟨by decide, by decide, by decide⟩

/-- Claim C3 amended: when `width_coefficient` is unset or zero,
`round_filters` returns its argument unchanged; and whenever the scaled
value `filters * width_coefficient` is nonnegative (in particular whenever
both are nonnegative, the only configurations the architecture family uses)
and the divisor is positive, the source computation agrees exactly with the
claim's formula `max(effective_min, floor((scaled + divisor/2)/divisor) *
divisor)` with one extra divisor step when that value is below
`0.9 * scaled`.  (For negative scaled values the code truncates toward zero
where the claim floors, which is the counterexample above.) -/
theorem round_filters_amended :
    (∀ (f : ℤ) (g : GlobalParams),
      g.width_coefficient = none ∨ g.width_coefficient = some 0 →
      round_filters f g = some f)
    ∧ (∀ (f : ℤ) (g : GlobalParams) (m : ℚ) (d : ℤ),
      g.width_coefficient = some m → g.depth_divisor = some d → 0 < d →
      0 ≤ qmul (qofInt f) m →
      round_filters f g = round_filters_spec f g) := by
  constructor
  · intro f g h
    rcases h with h | h
    · unfold round_filters
      rw [h]
    · unfold round_filters
      rw [h]
      simp
  · intro f g m d hm hd hdpos hpos
    have hd0 : ¬(d = 0) := by omega
    by_cases hm0 : m = 0
    · unfold round_filters round_filters_spec
      simp only [hm, hd]
      simp [hm0]
    · have hX : 0 ≤ qadd (qmul (qofInt f) m) (qdivInt (qofInt d) 2) := by
        rw [qadd_eq, qmul_eq, qdivInt_eq _ _ (by norm_num), qofInt_eq, qofInt_eq]
        rw [qmul_eq, qofInt_eq] at hpos
        have hdq : (0 : ℚ) ≤ (d : ℚ) := by exact_mod_cast hdpos.le
        have h2 : (0 : ℚ) ≤ (d : ℚ) / 2 := by positivity
        push_cast
        linarith
      have key :
          Int.fdiv
              (pyTrunc (qadd (qmul (qofInt f) m) (qdivInt (qofInt d) 2))) d
            = qfloor
                (qdivInt (qadd (qmul (qofInt f) m) (qdivInt (qofInt d) 2)) d) := by
        rw [pyTrunc_eq_qfloor _ hX, qfloor_eq, qfloor_eq,
          qdivInt_eq _ _ hd0, floor_div_int_pos _ _ hdpos]
      unfold round_filters round_filters_spec
      simp only [hm, hd]
      rw [if_neg hm0, if_neg hm0, if_neg hd0, if_neg hd0, key]

/-- Witness for the amended C3: the unset case at a concrete input, and the
nonnegative case at `filters = 3` with the b1 width coefficient `1.1` and
divisor `8`, where code and formula agree. -/
theorem round_filters_amended_witness :
    round_filters 5
        ⟨none, none, none, none, none, none, none, none, none, none, none⟩
      = some 5
    ∧ ((0 : ℤ) < 8 ∧ 0 ≤ qmul (qofInt 3) (qmk 11 10)
      ∧ round_filters 3 (gpBase (qmk 11 10) 1 240 (qmk 1 5))
          = round_filters_spec 3 (gpBase (qmk 11 10) 1 240 (qmk 1 5))) :=
  ⟨round_filters_amended.1 5 _ (Or.inl rfl),
   ⟨by decide, by decide,
    round_filters_amended.2 3 (gpBase (qmk 11 10) 1 240 (qmk 1 5))
      (qmk 11 10) 8 rfl rfl (by decide) (by decide)⟩⟩

theorem baseline_decode :
    BlockDecoder_decode blocks_args_strings = some baselineBlocks := by decide

theorem startsWith_of_params_some (name : String) (x : ℚ × ℚ × ℤ × ℚ)
    (h : efficientnet_params name = some x) :
    pyStartsWith "efficientnet" name = true := by
  have hm := efficientnet_params_mem name x h
  have hall : efficientnetTableNames.all
      (fun n => pyStartsWith "efficientnet" n) = true := by decide
  exact List.all_eq_true.mp hall name hm

theorem gpSetField_some (g : GlobalParams) (fld : GPField) (v : GPVal)
    (h : kindOk fld v = true) :
    ∃ g2, gpSetField g fld v = some g2
      ∧ gpGetField g2 fld = v
      ∧ ∀ f2 : GPField, f2 ≠ fld → gpGetField g2 f2 = gpGetField g f2 := by
  cases fld <;> cases v <;>
    first
      | (refine ⟨_, rfl, rfl, ?_⟩
         intro f2 hf2
         cases f2 <;> first | exact absurd rfl hf2 | rfl)
      | exact absurd h (by simp [kindOk])

theorem lookupStr_mem_pair {α : Type} :
    ∀ (t : List (String × α)) (n : String) (v : α),
      lookupStr t n = some v → (n, v) ∈ t := by
  intro t
  induction t with
  | nil => intro n v h; exact Option.noConfusion h
  | cons hd tl ih =>
    obtain ⟨k0, v0⟩ := hd
    intro n v h
    rw [lookupStr] at h
    by_cases he : n = k0
    · rw [if_pos he] at h
      cases h
      subst he
      exact List.Mem.head _
    · rw [if_neg he] at h
      exact List.Mem.tail _ (ih n v h)

theorem gpFieldOfName_inj (k : String) (fld : GPField)
    (h : gpFieldOfName k = some fld) : k = fieldName fld := by
  have hmem := lookupStr_mem_pair gpFieldTable k fld h
  have hall : ∀ p ∈ gpFieldTable, p.1 = fieldName p.2 := by decide
  exact hall _ hmem

theorem pyReplace_none_of_badkey :
    ∀ (ovr : List (String × GPVal)) (k : String) (v : GPVal),
      (k, v) ∈ ovr → gpFieldOfName k = none →
      ∀ g, pyReplace g ovr = none := by
  intro ovr
  induction ovr with
  | nil => intro k v hmem _ _; cases hmem
  | cons e rest ih =>
    intro k v hmem hbad g
    rcases List.mem_cons.mp hmem with he | he
    · cases he
      simp [pyReplace, pyReplaceStep, hbad]
    · obtain ⟨k0, v0⟩ := e
      show (pyReplaceStep g k0 v0).bind _ = none
      cases hstep : pyReplaceStep g k0 v0 with
      | none => rfl
      | some g1 =>
        simp only [Option.some_bind]
        exact ih k v he hbad g1

theorem pyReplace_tracks :
    ∀ (ovr : List (String × GPVal)) (g : GlobalParams),
      (∀ e ∈ ovr, entryValid e = true) →
      ∃ g2, pyReplace g ovr = some g2
        ∧ (∀ k v, ovrLookupLast ovr k = some v → gpGet g2 k = some v)
        ∧ (∀ k, ovrLookupLast ovr k = none → gpGet g2 k = gpGet g k) := by
  intro ovr
  induction ovr with
  | nil =>
    intro g _
    exact ⟨g, rfl, fun k v h => Option.noConfusion h, fun k _ => rfl⟩
  | cons e rest ih =>
    obtain ⟨k0, v0⟩ := e
    intro g hval
    have he : entryValid (k0, v0) = true := hval _ (List.Mem.head _)
    have he2 : (match gpFieldOfName k0 with
                | none => false
                | some f => kindOk f v0) = true := he
    cases hf0 : gpFieldOfName k0 with
    | none => rw [hf0] at he2; simp at he2
    | some fld0 =>
      rw [hf0] at he2
      obtain ⟨g1, hset, hget1, hother1⟩ := gpSetField_some g fld0 v0 he2
      obtain ⟨g2, hrep, htrack1, htrack2⟩ :=
        ih g1 (fun e2 he2 => hval _ (List.Mem.tail _ he2))
      refine ⟨g2, ?_, ?_, ?_⟩
      · show (pyReplaceStep g k0 v0).bind _ = some g2
        rw [pyReplaceStep, hf0]
        show (gpSetField g fld0 v0).bind _ = some g2
        rw [hset]
        simp only [Option.some_bind]
        exact hrep
      · intro k v hkv
        unfold ovrLookupLast at hkv
        cases hrk : ovrLookupLast rest k with
        | some v2 =>
          rw [hrk] at hkv
          cases hkv
          exact htrack1 k _ hrk
        | none =>
          rw [hrk] at hkv
          by_cases hk : k0 = k
          · rw [if_pos hk] at hkv
            cases hkv
            subst hk
            rw [htrack2 k0 hrk]
            unfold gpGet
            rw [hf0]
            simp only [Option.map_some']
            rw [hget1]
          · rw [if_neg hk] at hkv
            exact Option.noConfusion hkv
      · intro k hk
        unfold ovrLookupLast at hk
        cases hrk : ovrLookupLast rest k with
        | some v2 => rw [hrk] at hk; exact Option.noConfusion hk
        | none =>
          rw [hrk] at hk
          by_cases hkk : k0 = k
          · rw [if_pos hkk] at hk; exact Option.noConfusion hk
          · rw [htrack2 k hrk]
            unfold gpGet
            cases hfk : gpFieldOfName k with
            | none => rfl
            | some fld =>
              have hne : fld ≠ fld0 := by
                intro he2
                apply hkk
                have e1 := gpFieldOfName_inj k fld hfk
                have e2 := gpFieldOfName_inj k0 fld0 hf0
                rw [e2, ← he2, ← e1]
              simp only [Option.map_some']
              rw [hother1 fld hne]

theorem get_model_params_eq (name : String) (w d : ℚ) (s : ℤ) (p : ℚ)
    (hp : efficientnet_params name = some (w, d, s, p))
    (ovr : List (String × GPVal)) :
    get_model_params name ovr =
      (if ovr.isEmpty then some (baselineBlocks, gpBase w d s p)
       else (pyReplace (gpBase w d s p) ovr).map fun g2 =>
         (baselineBlocks, g2)) := by
  unfold get_model_params
  rw [if_pos (startsWith_of_params_some name _ hp)]
  simp only [hp]
  unfold efficientnet
  rw [baseline_decode]
  simp only [Option.map_some']
  rfl

/-- Claim C8: `get_model_params` fails for every model name that does not
start with `efficientnet`; it fails for every overrides dict containing a
key that is not a `GlobalParams` field; and for recognised names with valid
overrides it returns the decoded baseline block specs together with a
`GlobalParams` in which exactly the overridden fields are replaced (every
overridden field holds the override's value, every other field keeps the
value built from the looked-up coefficients). -/
theorem get_model_params_spec :
    (∀ (name : String) (ovr : List (String × GPVal)),
      pyStartsWith "efficientnet" name = false →
      get_model_params name ovr = none)
    ∧ (∀ (name : String) (ovr : List (String × GPVal)) (k : String) (v : GPVal),
      (k, v) ∈ ovr → gpFieldOfName k = none → get_model_params name ovr = none)
    ∧ (∀ (name : String) (w d : ℚ) (s : ℤ) (p : ℚ)
        (ovr : List (String × GPVal)),
      efficientnet_params name = some (w, d, s, p) →
      (∀ e ∈ ovr, entryValid e = true) →
      ∃ g, get_model_params name ovr = some (baselineBlocks, g)
        ∧ (∀ k v, ovrLookupLast ovr k = some v → gpGet g k = some v)
        ∧ (∀ k, ovrLookupLast ovr k = none →
            gpGet g k = gpGet (gpBase w d s p) k)) := by
  refine ⟨?_, ?_, ?_⟩
  · intro name ovr h
    unfold get_model_params
    rw [if_neg (by simp [h])]
  · intro name ovr k v hmem hbad
    by_cases hsw : pyStartsWith "efficientnet" name = true
    · unfold get_model_params
      rw [if_pos hsw]
      cases hp : efficientnet_params name with
      | none => rfl
      | some c =>
        obtain ⟨w, d2, s, p⟩ := c
        unfold efficientnet
        rw [baseline_decode]
        simp only [Option.map_some']
        have hne : ovr.isEmpty = false := by
          cases ovr with
          | nil => cases hmem
          | cons a b => rfl
        rw [if_neg (by simp [hne])]
        rw [pyReplace_none_of_badkey ovr k v hmem hbad _]
        rfl
    · unfold get_model_params
      rw [if_neg hsw]
  · intro name w d s p ovr hp hval
    rw [get_model_params_eq name w d s p hp ovr]
    obtain ⟨g2, hrep, ht1, ht2⟩ := pyReplace_tracks ovr (gpBase w d s p) hval
    cases hovr : ovr.isEmpty with
    | true =>
      have hnil : ovr = [] := by
        cases ovr with
        | nil => rfl
        | cons a b => exact Bool.noConfusion hovr
      subst hnil
      rw [if_pos rfl]
      exact ⟨gpBase w d s p, rfl,
        fun k v h => Option.noConfusion h, fun k _ => rfl⟩
    | false =>
      rw [if_neg (by simp [hovr])]
      rw [hrep]
      exact ⟨g2, rfl, ht1, ht2⟩

/-- Witness for C8: a non-prefixed name fails, and the b0 configuration
with the single valid override `num_classes := 7` succeeds with exactly
that field replaced. -/
theorem get_model_params_spec_witness :
    (pyStartsWith "efficientnet" "resnet50" = false
      ∧ get_model_params "resnet50" [] = none)
    ∧ (efficientnet_params "efficientnet-b0" = some (1, 1, 112, qmk 1 5)
      ∧ (∀ e ∈ [("num_classes", GPVal.vi 7)], entryValid e = true)
      ∧ (∃ g, get_model_params "efficientnet-b0" [("num_classes", GPVal.vi 7)]
            = some (baselineBlocks, g)
          ∧ (∀ k v, ovrLookupLast [("num_classes", GPVal.vi 7)] k = some v →
              gpGet g k = some v)
          ∧ (∀ k, ovrLookupLast [("num_classes", GPVal.vi 7)] k = none →
              gpGet g k = gpGet (gpBase 1 1 112 (qmk 1 5)) k))) :=
  ⟨⟨by decide, get_model_params_spec.1 "resnet50" [] (by decide)⟩,
   ⟨by decide, by decide,
    get_model_params_spec.2.2 "efficientnet-b0" 1 1 112 (qmk 1 5)
      [("num_classes", GPVal.vi 7)] (by decide) (by decide)⟩⟩

/-- Claim C10: for every model name in the coefficient table with an empty
overrides dict, `get_model_params` returns the 7 stages decoded from the
fixed baseline template together with a `GlobalParams` whose fixed fields
are `batch_norm_momentum = 0.99`, `batch_norm_epsilon = 1e-3`,
`drop_connect_rate = 0.2`, `depth_divisor = 8`, `min_depth = None`,
`num_classes = 1000`, `include_top = True`. -/
theorem get_model_params_defaults :
    ∀ (name : String) (w d : ℚ) (s : ℤ) (p : ℚ),
      efficientnet_params name = some (w, d, s, p) →
      get_model_params name [] = some (baselineBlocks, gpBase w d s p)
      ∧ (gpBase w d s p).batch_norm_momentum = some (99 / 100)
      ∧ (gpBase w d s p).batch_norm_epsilon = some (1 / 1000)
      ∧ (gpBase w d s p).drop_connect_rate = some (1 / 5)
      ∧ (gpBase w d s p).depth_divisor = some 8
      ∧ (gpBase w d s p).min_depth = none
      ∧ (gpBase w d s p).num_classes = some 1000
      ∧ (gpBase w d s p).include_top = some true
      ∧ BlockDecoder_decode blocks_args_strings = some baselineBlocks
      ∧ baselineBlocks.length = 7 := by
  intro name w d s p hp
  refine ⟨?_, ?_, ?_, ?_, rfl, rfl, rfl, rfl, baseline_decode, rfl⟩
  · rw [get_model_params_eq name w d s p hp []]
    rfl
  · rw [q_bnm_eq]
    rfl
  · rw [q_eps_eq]
    rfl
  · rw [q_fifth_eq]
    rfl

/-- Witness for C10: the b0 row of the table. -/
theorem get_model_params_defaults_witness :
    efficientnet_params "efficientnet-b0" = some (1, 1, 112, qmk 1 5)
    ∧ (get_model_params "efficientnet-b0" []
          = some (baselineBlocks, gpBase 1 1 112 (qmk 1 5))
      ∧ (gpBase 1 1 112 (qmk 1 5)).batch_norm_momentum = some (99 / 100)
      ∧ (gpBase 1 1 112 (qmk 1 5)).batch_norm_epsilon = some (1 / 1000)
      ∧ (gpBase 1 1 112 (qmk 1 5)).drop_connect_rate = some (1 / 5)
      ∧ (gpBase 1 1 112 (qmk 1 5)).depth_divisor = some 8
      ∧ (gpBase 1 1 112 (qmk 1 5)).min_depth = none
      ∧ (gpBase 1 1 112 (qmk 1 5)).num_classes = some 1000
      ∧ (gpBase 1 1 112 (qmk 1 5)).include_top = some true
      ∧ BlockDecoder_decode blocks_args_strings = some baselineBlocks
      ∧ baselineBlocks.length = 7) :=
  ⟨by decide,
   get_model_params_defaults "efficientnet-b0" 1 1 112 (qmk 1 5) (by decide)⟩
